import Mathlib

/-!
Verification development for iron's HTTP request assembly
(`src/request/mod.rs`): the URL resolver inside `Request::from_http`,
the body-framing selector `Body::from_reader`, and the read behaviour
of the framed body streams.

Bytes are modelled as natural numbers; the Byte Source (the unread tail
of one connection) is a `List Nat`, consumed from the front.
-/

set_option autoImplicit false

/-- A socket address; only the port participates in URL resolution. -/
structure SocketAddr where
  ip : List Nat
  port : Nat
deriving DecidableEq, Repr

/-- HTTP method, carried through unchanged (`method::Method`). -/
abbrev Method := String

/-- The typed `Host` header (hyper's `headers::Host`): a hostname and an
optional port embedded in the header value. -/
structure HostHeader where
  hostname : String
  port : Option Nat
deriving DecidableEq, Repr

/-- The header mapping handed over by the protocol layer (`Headers`).
The typed lookup `headers.get::<headers::Host>()` is modelled by the
`host` field; all other header fields are kept opaque in `fields`. -/
structure Headers where
  host : Option HostHeader
  fields : List (String × String)
deriving DecidableEq, Repr

/-- The protocol descriptor; `Protocol.name` is the scheme string
(`"http"` or `"https"`). -/
structure Protocol where
  name : String
deriving DecidableEq, Repr

/-- The resolved absolute URL (`iron::Url`): scheme, host, port, path,
query. -/
structure Url where
  scheme : String
  host : String
  port : Nat
  path : String
  query : Option String
deriving DecidableEq, Repr

/-- Modelled from the spec: the already-parsed absolute-URI carried by
hyper's `RequestUri::AbsoluteUri` (the generic `url::Url`), whose
conversion `Url::from_generic_url` lives in `src/request/url.rs`, a file
not present under `src/`. A generic URL carries scheme, host, port, path
and query components; the `valid` flag abstracts whether the value
satisfies the URL grammar restrictions that conversion checks. -/
structure GenericUrl where
  scheme : String
  host : String
  port : Nat
  path : String
  query : Option String
  valid : Bool
deriving DecidableEq, Repr

/-- Modelled from the spec: `Url::from_generic_url`
(`src/request/url.rs`, not under `src/`): "parse and validate it
directly as a URL; its scheme/host/port/path are taken as given (no
rewriting)", failing with a malformed-URL error otherwise. -/
def Url.from_generic_url (g : GenericUrl) : Except String Url :=
  if g.valid then
    .ok { scheme := g.scheme, host := g.host, port := g.port,
          path := g.path, query := g.query }
  else .error "MalformedUrl"

/-- The request-target forms of hyper's `RequestUri`. -/
inductive RequestUri where
  | AbsoluteUri (url : GenericUrl)
  | AbsolutePath (path : String)
  | Authority (s : String)
  | Star
deriving DecidableEq, Repr

/-- Break a character list at the first `"://"`, yielding the scheme
characters and the remainder. -/
def breakScheme : List Char → Option (List Char × List Char)
  | [] => none
  | ':' :: '/' :: '/' :: rest => some ([], rest)
  | c :: rest =>
      match breakScheme rest with
      | some (pre, post) => some (c :: pre, post)
      | none => none

/-- Break at the first `'/'`; the slash stays with the second part. -/
def breakPath : List Char → List Char × List Char
  | [] => ([], [])
  | '/' :: rest => ([], '/' :: rest)
  | c :: rest =>
      let p := breakPath rest
      (c :: p.1, p.2)

/-- Break at the first `':'`; `none` when no colon occurs. -/
def breakColon : List Char → List Char × Option (List Char)
  | [] => ([], none)
  | ':' :: rest => ([], some rest)
  | c :: rest =>
      let p := breakColon rest
      (c :: p.1, p.2)

/-- Break at the first `'?'`; `none` when no question mark occurs. -/
def breakQuery : List Char → List Char × Option (List Char)
  | [] => ([], none)
  | '?' :: rest => ([], some rest)
  | c :: rest =>
      let p := breakQuery rest
      (c :: p.1, p.2)

/-- Decimal digit value of a character, if it is a digit. -/
def decDigitVal (c : Char) : Option Nat :=
  if 48 ≤ c.toNat && c.toNat ≤ 57 then some (c.toNat - 48) else none

/-- Parse a non-empty all-decimal-digit character list as a number. -/
def parseDec (cs : List Char) : Option Nat :=
  match cs with
  | [] => none
  | _ :: _ =>
      cs.foldl (fun acc c =>
        match acc, decDigitVal c with
        | some a, some v => some (10 * a + v)
        | _, _ => none) (some 0)

/-- Default port of a scheme with a well-known port. -/
def defaultPort (scheme : String) : Option Nat :=
  if scheme = "http" then some 80
  else if scheme = "https" then some 443
  else none

/-- Modelled from the spec: `Url::parse` (`src/request/url.rs`, not
under `src/`): parse `scheme://host:port/path?query` as an absolute
URL — scheme before `"://"`, authority up to the first `'/'`, an
optional explicit port after `':'` (otherwise the scheme's default),
path up to `'?'` (defaulting to `"/"`), then the query — failing when
the string does not fit this URL grammar. -/
def Url.parse (s : String) : Except String Url :=
  match breakScheme s.toList with
  | none => .error "relative URL without a base"
  | some (schemeCs, rest) =>
      if schemeCs = [] then .error "empty scheme"
      else
        let ap := breakPath rest
        let hp := breakColon ap.1
        if hp.1 = [] then .error "empty host"
        else
          let portOpt := match hp.2 with
            | some cs => parseDec cs
            | none => defaultPort (String.mk schemeCs)
          match portOpt with
          | none => .error "invalid port number"
          | some port =>
              let pq := breakQuery ap.2
              .ok { scheme := String.mk schemeCs,
                    host := String.mk hp.1,
                    port := port,
                    path := if pq.1 = [] then "/" else String.mk pq.1,
                    query := pq.2.map String.mk }

/-- The state of hyper's `HttpReader` over the Byte Source. The reader
handle itself is external state (the `List Nat` source), so only the
framing state is kept: `SizedReader` holds the remaining byte count,
`ChunkedReader` holds the optional remaining size of the current chunk
(`none` at a chunk boundary, as constructed by `Body::from_reader`
from the declared content length). -/
inductive HttpReader where
  | SizedReader (remaining : Nat)
  | ChunkedReader (state : Option Nat)
  | EofReader
  | EmptyReader
deriving DecidableEq, Repr

/-- The body of an iron request: `struct Body<'a>(Box<HttpReader<..>>)`. -/
structure Body where
  reader : HttpReader
deriving DecidableEq, Repr

/-- `Body::new`: wraps the hyper `HttpReader` (the lifetime transmute
is behaviourally the identity). -/
def Body.new (r : HttpReader) : Body := ⟨r⟩

/-- `Body::from_reader`: the body-framing selector, translated branch
for branch from `src/request/mod.rs` lines 124-138. The Rust reader
argument is the external Byte Source and is not part of the state. -/
def Body.from_reader (len : Option Nat) (chunked : Bool) : Body :=
  ⟨if len.isSome && !chunked then HttpReader.SizedReader (len.getD 0)
    else if chunked then HttpReader.ChunkedReader len
    else if !len.isSome && !chunked then HttpReader.EofReader
    else HttpReader.EmptyReader⟩

/-- Outcome of one successful read: the bytes produced, the reader's
new state, and the Byte Source's remaining tail. -/
structure ReadResult where
  out : List Nat
  reader : HttpReader
  src : List Nat
deriving DecidableEq, Repr

/-- Read one CRLF-terminated line: the line's bytes (without the CRLF)
and the rest of the source; `none` when no CRLF is found. -/
def readLine : List Nat → Option (List Nat × List Nat)
  | [] => none
  | 13 :: 10 :: rest => some ([], rest)
  | c :: rest =>
      match readLine rest with
      | some (l, r) => some (c :: l, r)
      | none => none

/-- Hexadecimal digit value of a byte, if it is a hex digit. -/
def hexDigitVal (c : Nat) : Option Nat :=
  if 48 ≤ c && c ≤ 57 then some (c - 48)
  else if 65 ≤ c && c ≤ 70 then some (c - 55)
  else if 97 ≤ c && c ≤ 102 then some (c - 87)
  else none

/-- Parse a non-empty hexadecimal chunk-size line. -/
def parseChunkSize (line : List Nat) : Option Nat :=
  match line with
  | [] => none
  | _ :: _ =>
      line.foldl (fun acc c =>
        match acc, hexDigitVal c with
        | some a, some v => some (16 * a + v)
        | _, _ => none) (some 0)

/-- Discard trailer lines up to and including the empty line that ends
the trailer section; fuelled by the source length. -/
def discardTrailer : List Nat → Nat → Option (List Nat)
  | _, 0 => none
  | src, fuel + 1 =>
      match readLine src with
      | none => none
      | some ([], rest) => some rest
      | some (_ :: _, rest) => discardTrailer rest fuel

/-- Modelled from the spec: reading chunk payload with `rem` bytes left
in the current chunk (hyper's `HttpReader::read`, external to `src/`):
take at most `min rem requested` bytes; a truncated source is an
early-eof I/O error; when the chunk's payload is complete, consume the
CRLF that ends the chunk and return to a chunk boundary. -/
def readChunkData (rem : Nat) (src : List Nat) (n : Nat) : Except String ReadResult :=
  let toRead := min rem n
  let out := src.take toRead
  if 0 < toRead ∧ out = [] then .error "early eof"
  else
    let src2 := src.drop out.length
    let rem2 := rem - out.length
    if rem2 = 0 then
      match src2 with
      | 13 :: 10 :: rest => .ok ⟨out, .ChunkedReader none, rest⟩
      | _ => .error "expected CRLF after chunk body"
    else .ok ⟨out, .ChunkedReader (some rem2), src2⟩

/-- Modelled from the spec: one read of the chunked decoder (hyper's
`HttpReader::ChunkedReader`, external to `src/`): "decodes
chunk-size-prefixed segments in order, concatenating their payloads;
on encountering the zero-length terminal chunk, consumes and discards
the trailer section before reporting end-of-stream". The state is the
remaining size of the current chunk: `none` means a chunk-size line
must be read first, `some 0` means the terminal chunk was seen and the
stream is exhausted. -/
def readChunked (st : Option Nat) (src : List Nat) (n : Nat) : Except String ReadResult :=
  match st with
  | some 0 => .ok ⟨[], .ChunkedReader (some 0), src⟩
  | some (r + 1) => readChunkData (r + 1) src n
  | none =>
      match readLine src with
      | none => .error "unexpected end of chunk stream"
      | some (line, rest) =>
          match parseChunkSize line with
          | none => .error "invalid chunk size line"
          | some 0 =>
              match discardTrailer rest (rest.length + 1) with
              | none => .error "invalid chunk trailer"
              | some rest2 => .ok ⟨[], .ChunkedReader (some 0), rest2⟩
          | some (sz + 1) => readChunkData (sz + 1) rest n

/-- Modelled from the spec: one read of up to `n` bytes (hyper's
`HttpReader::read`, external to `src/`, per the spec's uniform
operation `read(buffer) -> number of bytes filled, or end-of-stream`):
`SizedReader` returns at most `min requested remaining` bytes and
decrements `remaining`, reporting end-of-stream once `remaining` is 0;
`EofReader` drains the source directly; `EmptyReader` reports
end-of-stream without touching the source. End-of-stream is an `ok`
result with no bytes. -/
def readStep : HttpReader → List Nat → Nat → Except String ReadResult
  | .SizedReader remaining, src, n =>
      if remaining = 0 then .ok ⟨[], .SizedReader 0, src⟩
      else
        let len := min n remaining
        let out := src.take len
        .ok ⟨out, .SizedReader (remaining - out.length), src.drop out.length⟩
  | .ChunkedReader st, src, n => readChunked st src n
  | .EofReader, src, n => .ok ⟨src.take n, .EofReader, src.drop n⟩
  | .EmptyReader, src, _ => .ok ⟨[], .EmptyReader, src⟩

/-- `impl Read for Body`: a read on the body delegates to the wrapped
`HttpReader` (`self.0.read(buf)`). -/
def Body.read (b : Body) (src : List Nat) (n : Nat) : Except String ReadResult :=
  readStep b.reader src n

/-- Drive a reader through a sequence of reads with the given requested
sizes, concatenating the bytes produced. -/
def readMany : HttpReader → List Nat → List Nat → Except String ReadResult
  | r, src, [] => .ok ⟨[], r, src⟩
  | r, src, n :: ns =>
      match readStep r src n with
      | .error e => .error e
      | .ok res =>
          match readMany res.reader res.src ns with
          | .error e => .error e
          | .ok res2 => .ok ⟨res.out ++ res2.out, res2.reader, res2.src⟩

/-- The extension store (`typemap::TypeMap`), modelled as an
association list from capability keys to type-erased values. -/
structure TypeMap where
  entries : List (Nat × Nat)
deriving DecidableEq, Repr

/-- `TypeMap::new`: the freshly created, empty store. -/
def TypeMap.new : TypeMap := ⟨[]⟩

/-- Lookup in the extension store. -/
def TypeMap.get (m : TypeMap) (k : Nat) : Option Nat :=
  (m.entries.find? (fun e => e.1 == k)).map (fun e => e.2)

/-- The `Request` given to all middleware. -/
structure Request where
  url : Url
  remote_addr : SocketAddr
  local_addr : SocketAddr
  headers : Headers
  body : Body
  method : Method
  extensions : TypeMap
deriving DecidableEq, Repr

/-- The deconstructed `HttpRequest` handed over by hyper:
`req.deconstruct()` yields `(addr, method, headers, uri, version,
reader)`. -/
structure HttpRequest where
  remote_addr : SocketAddr
  method : Method
  headers : Headers
  uri : RequestUri
  version : Nat × Nat
  reader : HttpReader
deriving DecidableEq, Repr

/-- The `let url = match uri ...` block of `Request::from_http`
(`src/request/mod.rs` lines 74-98), lifted out as the URL resolver;
each early `return Err` becomes `.error`. -/
def resolveUrl (uri : RequestUri) (headers : Headers) (local_addr : SocketAddr)
    (protocol : Protocol) : Except String Url :=
  match uri with
  | .AbsoluteUri url => Url.from_generic_url url
  | .AbsolutePath path =>
      match headers.host with
      | some host =>
          match Url.parse (protocol.name ++ "://" ++ host.hostname ++ ":"
              ++ toString local_addr.port ++ path) with
          | .ok url => .ok url
          | .error e => .error ("Couldn't parse requested URL: " ++ e)
      | none => .error "No host specified in request"
  | _ => .error "Unsupported request URI"

/-- `Request::from_http`: resolve the URL first; on failure return that
error; on success assemble the descriptor with the input fields, the
body over the input reader, and a fresh empty extension store. -/
def Request.from_http (req : HttpRequest) (local_addr : SocketAddr)
    (protocol : Protocol) : Except String Request :=
  match resolveUrl req.uri req.headers local_addr protocol with
  | .error e => .error e
  | .ok url =>
      .ok { url := url
            remote_addr := req.remote_addr
            local_addr := local_addr
            headers := req.headers
            body := Body.new req.reader
            method := req.method
            extensions := TypeMap.new }

/-- The bytes of `"helloWORLD"`. -/
def helloWORLDBytes : List Nat := [104, 101, 108, 108, 111, 87, 79, 82, 76, 68]

/-- The bytes of `"hello"`. -/
def helloBytes : List Nat := [104, 101, 108, 108, 111]

/-- The bytes of the chunked body `"4\r\nWiki\r\n0\r\n\r\n"`. -/
def wikiChunked : List Nat :=
  [52, 13, 10, 87, 105, 107, 105, 13, 10, 48, 13, 10, 13, 10]

/-- A sample valid generic URL for an absolute-URI request-target. -/
def gSample : GenericUrl :=
  { scheme := "http", host := "example.com", port := 80,
    path := "/index", query := some "a=1", valid := true }

/-- A sample local listening address with port 3000. -/
def laSample : SocketAddr := ⟨[0, 0, 0, 0], 3000⟩

/-- The plain-HTTP protocol descriptor. -/
def pHttp : Protocol := ⟨"http"⟩

/-- A sample deconstructed request with an absolute-URI target. -/
def reqAbs : HttpRequest :=
  { remote_addr := ⟨[10, 0, 0, 1], 51000⟩, method := "GET",
    headers := { host := none, fields := [] },
    uri := RequestUri.AbsoluteUri gSample, version := (1, 1),
    reader := HttpReader.SizedReader 3 }

/-- A sample deconstructed request with target `/hello` and header
`Host: iron.test:8080` (an embedded port, which resolution ignores). -/
def reqPath : HttpRequest :=
  { remote_addr := ⟨[127, 0, 0, 1], 55555⟩, method := "GET",
    headers := { host := some { hostname := "iron.test", port := some 8080 },
                 fields := [] },
    uri := RequestUri.AbsolutePath "/hello", version := (1, 1),
    reader := HttpReader.EofReader }

/-- A sample deconstructed request with an absolute-path target and no
Host header. -/
def reqNoHost : HttpRequest :=
  { remote_addr := ⟨[127, 0, 0, 1], 50000⟩, method := "GET",
    headers := { host := none, fields := [] },
    uri := RequestUri.AbsolutePath "/x", version := (1, 1),
    reader := HttpReader.EofReader }

/-- A sample deconstructed request with an asterisk-form target. -/
def reqStar : HttpRequest :=
  { remote_addr := ⟨[127, 0, 0, 1], 40000⟩, method := "OPTIONS",
    headers := { host := none, fields := [] },
    uri := RequestUri.Star, version := (1, 1),
    reader := HttpReader.EofReader }

/-- The descriptor assembled from `reqAbs` at `laSample` over HTTP. -/
def rSample : Request :=
  { url := { scheme := "http", host := "example.com", port := 80,
             path := "/index", query := some "a=1" },
    remote_addr := ⟨[10, 0, 0, 1], 51000⟩, local_addr := laSample,
    headers := { host := none, fields := [] },
    body := Body.new (HttpReader.SizedReader 3), method := "GET",
    extensions := TypeMap.new }

/-! ## Theorems -/

/-- Helper: a `SizedReader` driven through any sequence of requested
sizes over a sufficiently long source produces exactly the first
`min remaining (sum of sizes)` source bytes. -/
theorem readMany_sized (sizes : List Nat) : ∀ (rem : Nat) (src : List Nat),
    rem ≤ src.length →
    readMany (HttpReader.SizedReader rem) src sizes
      = .ok ⟨src.take (min rem sizes.sum),
             HttpReader.SizedReader (rem - min rem sizes.sum),
             src.drop (min rem sizes.sum)⟩ := by
  induction sizes with
  | nil =>
      intro rem src _
      simp [readMany]
  | cons n ns ih =>
      intro rem src h
      by_cases h0 : rem = 0
      · subst h0
        have ih0 := ih 0 src (by omega)
        simp [readMany, readStep, ih0]
      · have hlen : (src.take (min n rem)).length = min n rem := by
          rw [List.length_take]
          omega
        have hrec := ih (rem - min n rem) (src.drop (min n rem)) (by
          rw [List.length_drop]
          omega)
        simp only [readMany, readStep, if_neg h0, hlen, hrec]
        have e1 : src.take (min n rem) ++
            (src.drop (min n rem)).take (min (rem - min n rem) ns.sum)
            = src.take (min rem (n :: ns).sum) := by
          rw [← List.take_add]
          congr 1
          simp [List.sum_cons]
          omega
        have e2 : rem - min n rem - min (rem - min n rem) ns.sum
            = rem - min rem (n :: ns).sum := by
          simp [List.sum_cons]
          omega
        have e3 : (src.drop (min n rem)).drop (min (rem - min n rem) ns.sum)
            = src.drop (min rem (n :: ns).sum) := by
          rw [List.drop_drop]
          congr 1
          simp [List.sum_cons]
          omega
        simp [e1, e2, e3]

/-- C1 counterexample: with neither a content length nor chunked
declared, `Body::from_reader` builds the `EofReader` variant, not
`EmptyReader`, and a read on it does consume bytes from the Byte
Source (here it drains two bytes). -/
theorem C1_empty_body_counterexample :
    Body.from_reader none false ≠ Body.new HttpReader.EmptyReader ∧
    readStep (Body.from_reader none false).reader [104, 105] 2
      = .ok ⟨[104, 105], HttpReader.EofReader, []⟩ := by
  constructor
  · decide
  · rfl

/-- C1 (amended): with neither a content length nor chunked declared,
`Body::from_reader` builds the `EofReader` (read-to-connection-close)
variant, whose every read drains up to the requested number of bytes
from the Byte Source, reporting end-of-stream only once the source
itself is exhausted. -/
theorem C1_no_length_not_chunked_is_eof_reader :
    Body.from_reader none false = Body.new HttpReader.EofReader ∧
    (∀ (src : List Nat) (n : Nat),
      readStep HttpReader.EofReader src n
        = .ok ⟨src.take n, HttpReader.EofReader, src.drop n⟩) := by
  constructor
  · rfl
  · intro src n
    rfl

/-- C2: chunked is selected regardless of a declared length, but the
declared length is installed as the chunked decoder's initial
current-chunk state, so decoding is NOT identical: over the body
`4\r\nWiki\r\n0\r\n\r\n`, the stream built with no declared length
decodes `Wiki`, while the stream built with declared length 4 emits the
four raw bytes `4\r\nW` as chunk payload and then fails. -/
theorem C2_declared_length_changes_chunked_decoding :
    Body.from_reader (some 4) true = Body.new (HttpReader.ChunkedReader (some 4)) ∧
    Body.from_reader none true = Body.new (HttpReader.ChunkedReader none) ∧
    readMany (HttpReader.ChunkedReader none) wikiChunked [16, 16, 16]
      = .ok ⟨[87, 105, 107, 105], HttpReader.ChunkedReader (some 0), []⟩ ∧
    readMany (HttpReader.ChunkedReader (some 4)) wikiChunked [16, 16, 16]
      = .error "expected CRLF after chunk body" ∧
    readMany (HttpReader.ChunkedReader (some 4)) wikiChunked [16, 16, 16]
      ≠ readMany (HttpReader.ChunkedReader none) wikiChunked [16, 16, 16] := by
  refine ⟨rfl, rfl, rfl, rfl, ?_⟩
  intro h
  have h1 : readMany (HttpReader.ChunkedReader (some 4)) wikiChunked [16, 16, 16]
      = Except.error "expected CRLF after chunk body" := rfl
  have h2 : readMany (HttpReader.ChunkedReader none) wikiChunked [16, 16, 16]
      = Except.ok ⟨[87, 105, 107, 105], HttpReader.ChunkedReader (some 0), []⟩ := rfl
  rw [h1, h2] at h
  exact Except.noConfusion h

/-- C10: for every combination of the optional declared length and the
chunked flag, one of the first three branches of `Body::from_reader`
applies, so the final else branch is unreachable: the selector never
yields `EmptyReader`. -/
theorem C10_empty_reader_branch_unreachable :
    ∀ (len : Option Nat) (chunked : Bool),
      (Body.from_reader len chunked).reader ≠ HttpReader.EmptyReader := by
  intro len chunked
  cases len <;> cases chunked <;> simp [Body.from_reader]

/-- C3: for an absolute-path request-target with a Host header present,
`Request::from_http` resolves the URL by parsing the synthesized string
`scheme://hostname:local_port/path`, where the hostname comes from the
Host header and the port is the local listening port; the port embedded
in the Host header does not influence resolution; and concretely
`http://iron.test:3000/hello` parses to the expected URL. -/
theorem C3_absolute_path_resolution (req : HttpRequest) (la : SocketAddr)
    (p : Protocol) (path : String) (host : HostHeader)
    (huri : req.uri = RequestUri.AbsolutePath path)
    (hh : req.headers.host = some host) :
    (Request.from_http req la p =
      match Url.parse (p.name ++ "://" ++ host.hostname ++ ":"
          ++ toString la.port ++ path) with
      | .ok u => .ok { url := u, remote_addr := req.remote_addr,
                       local_addr := la, headers := req.headers,
                       body := Body.new req.reader, method := req.method,
                       extensions := TypeMap.new }
      | .error e => .error ("Couldn't parse requested URL: " ++ e)) ∧
    (∀ hp : Option Nat,
      resolveUrl req.uri
          { req.headers with host := some { host with port := hp } } la p
        = resolveUrl req.uri req.headers la p) ∧
    Url.parse "http://iron.test:3000/hello"
      = .ok { scheme := "http", host := "iron.test", port := 3000,
              path := "/hello", query := none } := by
  refine ⟨?_, ?_, rfl⟩
  · unfold Request.from_http resolveUrl
    rw [huri, hh]
    cases hparse : Url.parse (p.name ++ "://" ++ host.hostname ++ ":"
        ++ toString la.port ++ path) <;> simp [hparse]
  · intro hp
    rw [huri]
    simp [resolveUrl, hh]

/-- C3 witness: target `/hello`, header `Host: iron.test:8080`, local
port 3000, scheme `http` assemble to the descriptor whose URL is
`http://iron.test:3000/hello` (the embedded port 8080 is ignored). -/
theorem C3_absolute_path_resolution_witness :
    Request.from_http reqPath laSample pHttp
      = .ok { url := { scheme := "http", host := "iron.test", port := 3000,
                       path := "/hello", query := none },
              remote_addr := ⟨[127, 0, 0, 1], 55555⟩, local_addr := laSample,
              headers := { host := some { hostname := "iron.test",
                                          port := some 8080 }, fields := [] },
              body := Body.new HttpReader.EofReader, method := "GET",
              extensions := TypeMap.new } := by
  have h := (C3_absolute_path_resolution reqPath laSample pHttp "/hello"
    { hostname := "iron.test", port := some 8080 } rfl rfl).1
  rw [h]
  rfl

/-- C4: for an absolute-path request-target with no Host header,
`Request::from_http` always fails with the missing-host error,
whatever the path, addresses, method or other headers. -/
theorem C4_missing_host (req : HttpRequest) (la : SocketAddr) (p : Protocol)
    (path : String) (huri : req.uri = RequestUri.AbsolutePath path)
    (hh : req.headers.host = none) :
    Request.from_http req la p = .error "No host specified in request" := by
  unfold Request.from_http resolveUrl
  rw [huri, hh]

/-- C4 witness: the sample host-less absolute-path request fails with
the missing-host error. -/
theorem C4_missing_host_witness :
    Request.from_http reqNoHost laSample pHttp
      = .error "No host specified in request" :=
  C4_missing_host reqNoHost laSample pHttp "/x" rfl rfl

/-- C5: `Request::from_http` is all-or-nothing: it fails with error `e`
exactly when the URL resolver fails with that same error `e`; in the
failure case the `Except.error` result carries no `Request` value. -/
theorem C5_resolution_failure_atomic (req : HttpRequest) (la : SocketAddr)
    (p : Protocol) (e : String) :
    Request.from_http req la p = .error e ↔
      resolveUrl req.uri req.headers la p = .error e := by
  unfold Request.from_http
  cases hr : resolveUrl req.uri req.headers la p with
  | error e2 => simp
  | ok u => simp

/-- C6: for a valid absolute-URI request-target, `Request::from_http`
succeeds and the resolved URL's scheme, host, port, path and query are
exactly the input URI's components, with no rewriting. -/
theorem C6_absolute_uri_components (req : HttpRequest) (la : SocketAddr)
    (p : Protocol) (g : GenericUrl)
    (huri : req.uri = RequestUri.AbsoluteUri g) (hv : g.valid = true) :
    Request.from_http req la p = .ok
      { url := { scheme := g.scheme, host := g.host, port := g.port,
                 path := g.path, query := g.query },
        remote_addr := req.remote_addr, local_addr := la,
        headers := req.headers, body := Body.new req.reader,
        method := req.method, extensions := TypeMap.new } := by
  simp [Request.from_http, resolveUrl, Url.from_generic_url, huri, hv]

/-- C6 witness: the sample absolute-URI request resolves to its own
components. -/
theorem C6_absolute_uri_components_witness :
    Request.from_http reqAbs laSample pHttp = .ok
      { url := { scheme := "http", host := "example.com", port := 80,
                 path := "/index", query := some "a=1" },
        remote_addr := ⟨[10, 0, 0, 1], 51000⟩, local_addr := laSample,
        headers := { host := none, fields := [] },
        body := Body.new (HttpReader.SizedReader 3), method := "GET",
        extensions := TypeMap.new } :=
  C6_absolute_uri_components reqAbs laSample pHttp gSample rfl rfl

/-- C7: reading a `Sized` body: `Body::read` delegates to the wrapped
reader; a `SizedReader` read returns at most `min requested remaining`
bytes and its new state is `remaining` decremented by the number
returned; at `remaining = 0` every read reports end-of-stream without
touching the Byte Source; and a `Sized 5` stream over the bytes of
`helloWORLD` yields exactly the bytes of `hello` and then
end-of-stream, for every sequence of requested sizes totalling at
least 5. -/
theorem C7_sized_read_semantics :
    (∀ (b : Body) (src : List Nat) (n : Nat),
      Body.read b src n = readStep b.reader src n) ∧
    (∀ (rem : Nat) (src : List Nat) (n : Nat), ∃ res : ReadResult,
      readStep (HttpReader.SizedReader rem) src n = .ok res ∧
      res.out.length ≤ min n rem ∧
      res.reader = HttpReader.SizedReader (rem - res.out.length)) ∧
    (∀ (src : List Nat) (n : Nat),
      readStep (HttpReader.SizedReader 0) src n
        = .ok ⟨[], HttpReader.SizedReader 0, src⟩) ∧
    (∀ sizes : List Nat, 5 ≤ sizes.sum →
      readMany (HttpReader.SizedReader 5) helloWORLDBytes sizes
        = .ok ⟨helloBytes, HttpReader.SizedReader 0, [87, 79, 82, 76, 68]⟩) := by
  refine ⟨fun b src n => rfl, ?_, fun src n => rfl, ?_⟩
  · intro rem src n
    by_cases h0 : rem = 0
    · subst h0
      exact ⟨⟨[], .SizedReader 0, src⟩, by simp [readStep], by simp, by simp⟩
    · refine ⟨⟨src.take (min n rem),
        .SizedReader (rem - (src.take (min n rem)).length),
        src.drop (src.take (min n rem)).length⟩, by simp [readStep, h0], ?_, rfl⟩
      simp only [List.length_take]
      omega
  · intro sizes hs
    have h5 : min 5 sizes.sum = 5 := by omega
    rw [readMany_sized sizes 5 helloWORLDBytes (by simp [helloWORLDBytes]), h5]
    rfl

/-- C7 witness: reading the `Sized 5` stream over `helloWORLD` with
requested sizes 2, 2, 2 yields exactly `hello`. -/
theorem C7_sized_read_semantics_witness :
    5 ≤ ([2, 2, 2] : List Nat).sum ∧
    readMany (HttpReader.SizedReader 5) helloWORLDBytes [2, 2, 2]
      = .ok ⟨helloBytes, HttpReader.SizedReader 0, [87, 79, 82, 76, 68]⟩ :=
  ⟨by decide, C7_sized_read_semantics.2.2.2 [2, 2, 2] (by decide)⟩

/-- C8: for a request-target that is neither an absolute-URI nor an
absolute-path, `Request::from_http` always fails with the
unsupported-target error. -/
theorem C8_unsupported_target (req : HttpRequest) (la : SocketAddr)
    (p : Protocol)
    (h1 : ∀ g, req.uri ≠ RequestUri.AbsoluteUri g)
    (h2 : ∀ s, req.uri ≠ RequestUri.AbsolutePath s) :
    Request.from_http req la p = .error "Unsupported request URI" := by
  unfold Request.from_http resolveUrl
  cases hu : req.uri with
  | AbsoluteUri g => exact absurd hu (h1 g)
  | AbsolutePath s => exact absurd hu (h2 s)
  | Authority s => rfl
  | Star => rfl

/-- C8 witness: an asterisk-form target fails with the
unsupported-target error. -/
theorem C8_unsupported_target_witness :
    Request.from_http reqStar laSample pHttp
      = .error "Unsupported request URI" :=
  C8_unsupported_target reqStar laSample pHttp
    (fun _g h => RequestUri.noConfusion h)
    (fun _s h => RequestUri.noConfusion h)

/-- C9: whenever `Request::from_http` succeeds, the returned descriptor
carries the input method, header mapping, remote address and local
address unchanged, its body wraps the input reader over the Byte
Source, and its extension store is the freshly created empty one, which
contains no entry for any key. -/
theorem C9_success_descriptor_fields (req : HttpRequest) (la : SocketAddr)
    (p : Protocol) (r : Request) (h : Request.from_http req la p = .ok r) :
    r.method = req.method ∧ r.headers = req.headers ∧
    r.remote_addr = req.remote_addr ∧ r.local_addr = la ∧
    r.body = Body.new req.reader ∧ r.extensions = TypeMap.new ∧
    (∀ k, TypeMap.get r.extensions k = none) := by
  unfold Request.from_http at h
  cases hr : resolveUrl req.uri req.headers la p with
  | error e =>
      rw [hr] at h
      exact Except.noConfusion h
  | ok u =>
      rw [hr] at h
      injection h with h2
      subst h2
      exact ⟨rfl, rfl, rfl, rfl, rfl, rfl, fun k => rfl⟩

/-- C9 witness: the descriptor assembled from the sample absolute-URI
request carries its inputs unchanged and an empty extension store. -/
theorem C9_success_descriptor_fields_witness :
    rSample.method = "GET" ∧ rSample.extensions = TypeMap.new ∧
    TypeMap.get rSample.extensions 0 = none :=
  ⟨(C9_success_descriptor_fields reqAbs laSample pHttp rSample rfl).1,
   (C9_success_descriptor_fields reqAbs laSample pHttp rSample rfl).2.2.2.2.2.1,
   (C9_success_descriptor_fields reqAbs laSample pHttp rSample rfl).2.2.2.2.2.2 0⟩
